import Mathlib

/-!
Shallow embedding of `src/buffer.cpp` (the VescUart byte-buffer codec) and
verification of its specification.

Modelling conventions:
- a byte buffer (`uint8_t *`) is a total map `Nat → Nat`; reads truncate to
  8 bits (`% 256`) exactly as `uint8_t` storage does, and writes store `% 256`;
- nullable pointers (`const uint8_t *buffer`, `int32_t *index`) are `Option`s;
  a getter returns the pair (value, final cursor), the final cursor being
  `none` exactly when the cursor pointer was null;
- `int32_t` cursor values are unbounded `Int` (the C arithmetic on the
  modelled paths does not overflow for the ranges the claims quantify over);
  Lean's `/` and `%` on `Int` are Euclidean, matching the C code's uses here
  (divisors are positive powers of two and, where a dividend can be negative,
  the code uses two's-complement truncation which is modelled via `Int.emod`);
- big-endian words built by shift-and-or of disjoint byte fields are modelled
  as the equal sum of the shifted fields;
- `float` / `double` arithmetic on the decode paths is modelled exactly over
  `ℚ`: every arithmetic step the code performs on these paths is exact in
  binary32 (the significand expressions carry at most 24 significant bits);
  `isfinite` is modelled as `|x| < 2^128` (a binary32 value is infinite
  exactly when its magnitude reaches `2^128`) and `ldexpf` as exact
  multiplication by a power of two; a NaN or infinity is the dedicated
  constructor `FVal.nonfin`.
-/

namespace VescUart

/-- A byte buffer: total map from indices to stored bytes. -/
def Buf : Type := Nat → Nat

/-- Read `buffer[i]` as a `uint8_t` value. -/
def byteAt (b : Buf) (i : Int) : Nat := b i.toNat % 256

/-- Store a byte: `buffer[i] = v` with `uint8_t` truncation. -/
def writeByte (b : Buf) (i : Int) (v : Nat) : Buf :=
  fun j : Nat => if (j : Int) = i then v % 256 else b j

/-- The 16-bit big-endian word `buffer[i] << 8 | buffer[i+1]`. -/
def beWord2 (buf : Buf) (i : Int) : Nat :=
  byteAt buf i * 256 + byteAt buf (i + 1)

/-- The 32-bit big-endian word
`buffer[i] << 24 | buffer[i+1] << 16 | buffer[i+2] << 8 | buffer[i+3]`. -/
def beWord4 (buf : Buf) (i : Int) : Nat :=
  byteAt buf i * 2 ^ 24 + byteAt buf (i + 1) * 2 ^ 16 +
    byteAt buf (i + 2) * 2 ^ 8 + byteAt buf (i + 3)

/-- Reinterpret a 16-bit unsigned word as `int16_t` (two's complement). -/
def toInt16 (n : Nat) : Int :=
  if n % 65536 < 32768 then ((n % 65536 : Nat) : Int)
  else ((n % 65536 : Nat) : Int) - 65536

/-- Reinterpret a 32-bit unsigned word as `int32_t` (two's complement). -/
def toInt32 (n : Nat) : Int :=
  if n % 4294967296 < 2147483648 then ((n % 4294967296 : Nat) : Int)
  else ((n % 4294967296 : Nat) : Int) - 4294967296

/-- `buffer_append_int16`: writes `number >> 8` then `number`, each truncated
to `uint8_t`, advancing the cursor by one per byte.  The two stored bytes are
the base-256 digits of `number mod 2^16`. -/
def buffer_append_int16 (buffer : Buf) (number : Int) (index : Int) :
    Buf × Int :=
  (writeByte (writeByte buffer index (((number % 65536 : Int)).toNat / 256))
      (index + 1) (((number % 65536 : Int)).toNat % 256),
   index + 2)

/-- `buffer_append_uint16`: same byte layout as `buffer_append_int16`. -/
def buffer_append_uint16 (buffer : Buf) (number : Int) (index : Int) :
    Buf × Int :=
  (writeByte (writeByte buffer index (((number % 65536 : Int)).toNat / 256))
      (index + 1) (((number % 65536 : Int)).toNat % 256),
   index + 2)

/-- `buffer_append_int32`: writes the four big-endian bytes of
`number mod 2^32`. -/
def buffer_append_int32 (buffer : Buf) (number : Int) (index : Int) :
    Buf × Int :=
  (writeByte (writeByte (writeByte (writeByte buffer index
      (((number % 4294967296 : Int)).toNat / 2 ^ 24))
      (index + 1) (((number % 4294967296 : Int)).toNat / 2 ^ 16 % 256))
      (index + 2) (((number % 4294967296 : Int)).toNat / 2 ^ 8 % 256))
      (index + 3) (((number % 4294967296 : Int)).toNat % 256),
   index + 4)

/-- `buffer_append_uint32`: same byte layout as `buffer_append_int32`. -/
def buffer_append_uint32 (buffer : Buf) (number : Int) (index : Int) :
    Buf × Int :=
  (writeByte (writeByte (writeByte (writeByte buffer index
      (((number % 4294967296 : Int)).toNat / 2 ^ 24))
      (index + 1) (((number % 4294967296 : Int)).toNat / 2 ^ 16 % 256))
      (index + 2) (((number % 4294967296 : Int)).toNat / 2 ^ 8 % 256))
      (index + 3) (((number % 4294967296 : Int)).toNat % 256),
   index + 4)

/-- `buffer_get_int16` (legacy tier, implicit limit 1024). -/
def buffer_get_int16 (buffer : Option Buf) (index : Option Int) :
    Int × Option Int :=
  match buffer, index with
  | some buf, some i =>
    if i < 0 ∨ i + 1 ≥ 1024 then (0, some 1024)
    else (toInt16 (beWord2 buf i), some (i + 2))
  | none, some _ => (0, some 1024)
  | _, none => (0, none)

/-- `buffer_get_uint16` (legacy tier). -/
def buffer_get_uint16 (buffer : Option Buf) (index : Option Int) :
    Int × Option Int :=
  match buffer, index with
  | some buf, some i =>
    if i < 0 ∨ i + 1 ≥ 1024 then (0, some 1024)
    else ((beWord2 buf i : Int), some (i + 2))
  | none, some _ => (0, some 1024)
  | _, none => (0, none)

/-- `buffer_get_int32` (legacy tier). -/
def buffer_get_int32 (buffer : Option Buf) (index : Option Int) :
    Int × Option Int :=
  match buffer, index with
  | some buf, some i =>
    if i < 0 ∨ i + 3 ≥ 1024 then (0, some 1024)
    else (toInt32 (beWord4 buf i), some (i + 4))
  | none, some _ => (0, some 1024)
  | _, none => (0, none)

/-- `buffer_get_uint32` (legacy tier). -/
def buffer_get_uint32 (buffer : Option Buf) (index : Option Int) :
    Int × Option Int :=
  match buffer, index with
  | some buf, some i =>
    if i < 0 ∨ i + 3 ≥ 1024 then (0, some 1024)
    else ((beWord4 buf i : Int), some (i + 4))
  | none, some _ => (0, some 1024)
  | _, none => (0, none)

/-- `buffer_get_bool` (legacy tier): on precondition failure the cursor is
incremented unconditionally (`if (index) (*index)++`). -/
def buffer_get_bool (buffer : Option Buf) (index : Option Int) :
    Bool × Option Int :=
  match buffer, index with
  | some buf, some i =>
    if i < 0 ∨ i ≥ 1024 then (false, some (i + 1))
    else (byteAt buf i == 1, some (i + 1))
  | none, some i => (false, some (i + 1))
  | _, none => (false, none)

/-- `buffer_get_int16_safe` (explicit `buffer_len`). -/
def buffer_get_int16_safe (buffer : Option Buf) (index : Option Int)
    (buffer_len : Int) : Int × Option Int :=
  match buffer, index with
  | some buf, some i =>
    if i < 0 ∨ i + 1 ≥ buffer_len then (0, some buffer_len)
    else (toInt16 (beWord2 buf i), some (i + 2))
  | none, some _ => (0, some buffer_len)
  | _, none => (0, none)

/-- `buffer_get_uint16_safe`. -/
def buffer_get_uint16_safe (buffer : Option Buf) (index : Option Int)
    (buffer_len : Int) : Int × Option Int :=
  match buffer, index with
  | some buf, some i =>
    if i < 0 ∨ i + 1 ≥ buffer_len then (0, some buffer_len)
    else ((beWord2 buf i : Int), some (i + 2))
  | none, some _ => (0, some buffer_len)
  | _, none => (0, none)

/-- `buffer_get_int32_safe`. -/
def buffer_get_int32_safe (buffer : Option Buf) (index : Option Int)
    (buffer_len : Int) : Int × Option Int :=
  match buffer, index with
  | some buf, some i =>
    if i < 0 ∨ i + 3 ≥ buffer_len then (0, some buffer_len)
    else (toInt32 (beWord4 buf i), some (i + 4))
  | none, some _ => (0, some buffer_len)
  | _, none => (0, none)

/-- `buffer_get_uint32_safe`. -/
def buffer_get_uint32_safe (buffer : Option Buf) (index : Option Int)
    (buffer_len : Int) : Int × Option Int :=
  match buffer, index with
  | some buf, some i =>
    if i < 0 ∨ i + 3 ≥ buffer_len then (0, some buffer_len)
    else ((beWord4 buf i : Int), some (i + 4))
  | none, some _ => (0, some buffer_len)
  | _, none => (0, none)

/-- `buffer_get_bool_safe`: on precondition failure the cursor is incremented
only while still below `buffer_len` (`if (index && (*index) < buffer_len)`). -/
def buffer_get_bool_safe (buffer : Option Buf) (index : Option Int)
    (buffer_len : Int) : Bool × Option Int :=
  match buffer, index with
  | some buf, some i =>
    if i < 0 ∨ i ≥ buffer_len then
      (false, some (if i < buffer_len then i + 1 else i))
    else (byteAt buf i == 1, some (i + 1))
  | none, some i => (false, some (if i < buffer_len then i + 1 else i))
  | _, none => (false, none)

/-- A C `float` / `double` value: either an exact finite rational or a
non-finite value (NaN or an infinity). -/
inductive FVal where
  | fin (q : ℚ)
  | nonfin
deriving DecidableEq

/-- `isfinite` on the modelled float values.  A finite binary32/64 value
always has magnitude below `2^128`; a computed value whose exact magnitude
reaches `2^128` would have overflowed to an infinity. -/
def FVal.isfinite : FVal → Bool
  | fin q => decide (|q| < 2 ^ 128)
  | nonfin => false

/-- Division `(float)n / scale` of an integer by a modelled float scale.
Division by zero (producing an infinity or NaN) and any arithmetic on a
non-finite operand give a non-finite result. -/
def FVal.divIntF (n : Int) : FVal → FVal
  | fin q => if q = 0 then nonfin else fin ((n : ℚ) / q)
  | nonfin => nonfin

/-- `buffer_get_float16` (legacy): `(float)buffer_get_int16(...) / scale`. -/
def buffer_get_float16 (buffer : Option Buf) (scale : FVal)
    (index : Option Int) : FVal × Option Int :=
  let r := buffer_get_int16 buffer index
  (FVal.divIntF r.1 scale, r.2)

/-- `buffer_get_float16_safe`. -/
def buffer_get_float16_safe (buffer : Option Buf) (scale : FVal)
    (index : Option Int) (buffer_len : Int) : FVal × Option Int :=
  let r := buffer_get_int16_safe buffer index buffer_len
  (FVal.divIntF r.1 scale, r.2)

/-- `buffer_get_float32` (legacy): a leading null check returns `0.0`
without touching the cursor; an invalid scale skips 4 bytes unconditionally;
otherwise the value is `buffer_get_int32(...) / scale`, replaced by `0.0`
when not finite. -/
def buffer_get_float32 (buffer : Option Buf) (scale : FVal)
    (index : Option Int) : FVal × Option Int :=
  match buffer, index with
  | some buf, some i =>
    if scale = FVal.fin 0 ∨ scale.isfinite = false then
      (FVal.fin 0, some (i + 4))
    else
      let r := buffer_get_int32 (some buf) (some i)
      let result := FVal.divIntF r.1 scale
      (if result.isfinite then result else FVal.fin 0, r.2)
  | _, _ => (FVal.fin 0, index)

/-- `buffer_get_float32_safe`: the scale check comes first (no leading null
check), and the invalid-scale skip advances the cursor only when
`(*index) + 3 < buffer_len`. -/
def buffer_get_float32_safe (buffer : Option Buf) (scale : FVal)
    (index : Option Int) (buffer_len : Int) : FVal × Option Int :=
  if scale = FVal.fin 0 ∨ scale.isfinite = false then
    (FVal.fin 0,
     match index with
     | some i => some (if i + 3 < buffer_len then i + 4 else i)
     | none => none)
  else
    let r := buffer_get_int32_safe buffer index buffer_len
    let result := FVal.divIntF r.1 scale
    (if result.isfinite then result else FVal.fin 0, r.2)

/-- The field-unpacking and `ldexpf` recomposition shared verbatim by
`buffer_get_float32_auto` and `buffer_get_float32_auto_safe` (their bodies
after the `buffer_get_uint32` call are identical):
`int e = (res >> 23) & 0xFF; uint32_t sig_i = res & 0x7FFFFF;`
`bool neg = res & (1U << 31);` then `sig = sig_i / (8388608.0 * 2.0) + 0.5`
and `e -= 126` when `e != 0 || sig_i != 0`, negation when `neg`, and
`ldexpf(sig, e)` with a non-finite result replaced by `0.0`.
All arithmetic on this path is exact, so the value is computed in `ℚ`. -/
def autoUnpack (res : Nat) : ℚ :=
  let e : Int := ((res / 2 ^ 23) % 256 : Nat)
  let sig_i : Nat := res % 2 ^ 23
  let neg : Bool := decide (res / 2 ^ 31 % 2 = 1)
  let sig : ℚ := if e ≠ 0 ∨ sig_i ≠ 0 then (sig_i : ℚ) / (8388608 * 2) + 1 / 2 else 0
  let e2 : Int := if e ≠ 0 ∨ sig_i ≠ 0 then e - 126 else e
  let sig2 : ℚ := if neg then -sig else sig
  let result : ℚ := sig2 * 2 ^ e2
  if |result| < 2 ^ 128 then result else 0

/-- `buffer_get_float32_auto` (legacy): reads a 32-bit word through
`buffer_get_uint32` and unpacks it (see `autoUnpack`). -/
def buffer_get_float32_auto (buffer : Option Buf) (index : Option Int) :
    ℚ × Option Int :=
  let r := buffer_get_uint32 buffer index
  (autoUnpack r.1.toNat, r.2)

/-- `buffer_get_float32_auto_safe`: same unpacking over
`buffer_get_uint32_safe`. -/
def buffer_get_float32_auto_safe (buffer : Option Buf) (index : Option Int)
    (buffer_len : Int) : ℚ × Option Int :=
  let r := buffer_get_uint32_safe buffer index buffer_len
  (autoUnpack r.1.toNat, r.2)

/-- The exact value of the C `double` literal `1.5e-38` used as the
subnormal-flush threshold in `buffer_append_float32_auto`. -/
def subnormalLimit : ℚ := 5746858278247083 / 2 ^ 178

/-- The exact value of a finite nonzero binary32 input given by its
normalized decomposition `(-1)^sign * ((2^23 + frac) / 2^24) * 2^expo`
with `frac < 2^23`; every finite nonzero binary32 value has exactly one
such decomposition, and it is the one `frexpf` computes. -/
def floatVal (sign : Bool) (frac : Nat) (expo : Int) : ℚ :=
  (if sign then (-1 : ℚ) else 1) * ((2 ^ 23 + (frac : ℚ)) / 2 ^ 24) * 2 ^ expo

/-- A finite binary32 input value: either exact zero, or a nonzero value
given by its normalized `frexpf` decomposition
`(-1)^sign * ((2^23 + frac) / 2^24) * 2^expo` with `frac < 2^23` (every
finite nonzero binary32 value has exactly one such form). -/
inductive F32 where
  | zero
  | num (sign : Bool) (frac : Nat) (expo : Int)

/-- The exact rational value of a finite binary32 input. -/
def F32.val : F32 → ℚ
  | .zero => 0
  | .num sign frac expo => floatVal sign frac expo

/-- The significand `frexpf` returns for the input: `0.0` for input `0.0`,
otherwise `±(2^23 + frac) / 2^24` (with magnitude in `[1/2, 1)`). -/
def F32.frexpSig : F32 → ℚ
  | .zero => 0
  | .num sign frac _ =>
      (if sign then (-1 : ℚ) else 1) * ((2 ^ 23 + (frac : ℚ)) / 2 ^ 24)

/-- The exponent `frexpf` returns for the input: `0` for input `0.0`,
otherwise the decomposition exponent. -/
def F32.frexpExp : F32 → Int
  | .zero => 0
  | .num _ _ expo => expo

/-- Well-formedness of a finite binary32 input: zero, or a decomposition
with a 23-bit fraction field and exponent at most 128 (satisfied by every
finite binary32 value). -/
def F32.wf : F32 → Prop
  | .zero => True
  | .num _ frac expo => frac < 2 ^ 23 ∧ expo ≤ 128

/-- `buffer_append_float32_auto` on a finite `float` input (zero included).
The body mirrors the C source: magnitudes below `1.5e-38` are flushed to
zero first; `frexpf` of the (possibly flushed) value yields significand
`sig` and exponent `e0` (for `0.0` it yields `(0.0, 0)`, see
`F32.frexpSig` / `F32.frexpExp`); the significand field is
`(uint32_t)((sig_abs - 0.5) * 2 * 8388608)` when `sig_abs >= 0.5`, with the
exponent biased by `+126`; the packed word is appended through
`buffer_append_uint32`.  Every float step here is exact, so the arithmetic
is carried out in `ℚ`. -/
def buffer_append_float32_auto (buffer : Buf) (v : F32) (index : Int) :
    Buf × Int :=
  let number : ℚ := v.val
  let v2 : F32 := if |number| < subnormalLimit then F32.zero else v
  let sig : ℚ := v2.frexpSig
  let e0 : Int := v2.frexpExp
  let sig_abs : ℚ := |sig|
  let sig_i : Nat :=
    if 1 / 2 ≤ sig_abs then ((sig_abs - 1 / 2) * 2 * 8388608 : ℚ).floor.toNat
    else 0
  let e : Int := if 1 / 2 ≤ sig_abs then e0 + 126 else e0
  let res : Nat :=
    (e % 256).toNat * 2 ^ 23 + sig_i % 2 ^ 23 +
      (if sig < 0 then 2 ^ 31 else 0)
  buffer_append_uint32 buffer (res : Int) index

/-- Decode formula stated by the specification for a 32-bit auto-float word:
with `e` = bits 30-23, `sig_i` = bits 22-0 and `sign` = bit 31, the value is
`0.0` when `e == 0` and `sig_i == 0`, and otherwise `ldexp` of the
significand `sig_i / 2^24 + 0.5` (negated when the sign bit is set) and
exponent `e - 126`, with a non-finite recomposed value replaced by `0.0`. -/
def specAutoDecode (res : Nat) : ℚ :=
  let e : Int := ((res / 2 ^ 23) % 256 : Nat)
  let sig_i : Nat := res % 2 ^ 23
  let sign : Bool := decide (res / 2 ^ 31 % 2 = 1)
  if e = 0 ∧ sig_i = 0 then 0
  else
    let sig : ℚ := (sig_i : ℚ) / 2 ^ 24 + 1 / 2
    let v : ℚ := (if sign then -sig else sig) * 2 ^ (e - 126)
    if |v| < 2 ^ 128 then v else 0

/-- Cursor-range check used by the cursor invariant claims: a non-null final
cursor must lie in `[0, limit]`. -/
def cursorOk (oc : Option Int) (limit : Int) : Bool :=
  match oc with
  | some c => decide (0 ≤ c) && decide (c ≤ limit)
  | none => true

/-- The all-zero buffer, used as a concrete instance in witnesses. -/
def bufZero : Buf := fun _ => 0

/-- A varying buffer, used as a second concrete instance in witnesses. -/
def bufSeq : Buf := fun j => j

/-! ## Helper lemmas about byte reads and writes -/

theorem byteAt_writeByte_self (b : Buf) (i : Int) (v : Nat) (hi : 0 ≤ i) :
    byteAt (writeByte b i v) i = v % 256 := by
  simp only [byteAt, writeByte, Int.toNat_of_nonneg hi, if_true]
  omega

theorem byteAt_writeByte_ne (b : Buf) (i j : Int) (v : Nat) (hj : 0 ≤ j)
    (hne : j ≠ i) : byteAt (writeByte b i v) j = byteAt b j := by
  simp only [byteAt, writeByte, Int.toNat_of_nonneg hj, if_neg hne]

theorem beWord2_append_int16 (b : Buf) (v : Int) (i : Int) (hi : 0 ≤ i) :
    beWord2 (buffer_append_int16 b v i).1 i = ((v % 65536 : Int)).toNat := by
  have h : ((v % 65536 : Int)).toNat < 65536 := by omega
  simp only [beWord2, buffer_append_int16]
  rw [byteAt_writeByte_ne _ _ _ _ hi (by omega),
      byteAt_writeByte_self _ _ _ hi,
      byteAt_writeByte_self _ _ _ (by omega)]
  omega

theorem append_uint16_eq_int16 : buffer_append_uint16 = buffer_append_int16 :=
  rfl

theorem append_uint32_eq_int32 : buffer_append_uint32 = buffer_append_int32 :=
  rfl

theorem beWord4_append_int32 (b : Buf) (v : Int) (i : Int) (hi : 0 ≤ i) :
    beWord4 (buffer_append_int32 b v i).1 i =
      ((v % 4294967296 : Int)).toNat := by
  have h : ((v % 4294967296 : Int)).toNat < 4294967296 := by omega
  simp only [beWord4, buffer_append_int32]
  rw [byteAt_writeByte_ne _ _ _ _ hi (by omega),
      byteAt_writeByte_ne _ _ _ _ hi (by omega),
      byteAt_writeByte_ne _ _ _ _ hi (by omega),
      byteAt_writeByte_self _ _ _ hi,
      byteAt_writeByte_ne _ _ _ _ (by omega : (0:Int) ≤ i + 1) (by omega),
      byteAt_writeByte_ne _ _ _ _ (by omega : (0:Int) ≤ i + 1) (by omega),
      byteAt_writeByte_self _ _ _ (by omega : (0:Int) ≤ i + 1),
      byteAt_writeByte_ne _ _ _ _ (by omega : (0:Int) ≤ i + 2) (by omega),
      byteAt_writeByte_self _ _ _ (by omega : (0:Int) ≤ i + 2),
      byteAt_writeByte_self _ _ _ (by omega : (0:Int) ≤ i + 3)]
  have e24 : (2:Nat) ^ 24 = 16777216 := by norm_num
  have e16 : (2:Nat) ^ 16 = 65536 := by norm_num
  have e8 : (2:Nat) ^ 8 = 256 := by norm_num
  rw [e24, e16, e8] at *
  omega

theorem toInt16_emod (v : Int) (h1 : -32768 ≤ v) (h2 : v < 32768) :
    toInt16 ((v % 65536 : Int)).toNat = v := by
  unfold toInt16
  split <;> omega

theorem toInt32_emod (v : Int) (h1 : -2147483648 ≤ v) (h2 : v < 2147483648) :
    toInt32 ((v % 4294967296 : Int)).toNat = v := by
  unfold toInt32
  split <;> omega

/-! ## C4: integer append / get round-trip -/

/-- C4: for every in-range int16, uint16, int32 and uint32 value, every
buffer and every cursor `c` with `0 ≤ c` and `c + width ≤ 1024`, appending
the value at `c` with the matching append function and then reading at `c`
with the matching getter returns exactly the value, and both the append and
the get advance the cursor by exactly the type's width (2 or 4). -/
theorem C4_append_get_roundtrip (b : Buf) (c v16 vu16 v32 vu32 : Int) :
    (0 ≤ c → c + 2 ≤ 1024 → -32768 ≤ v16 → v16 < 32768 →
      (buffer_append_int16 b v16 c).2 = c + 2 ∧
      buffer_get_int16 (some (buffer_append_int16 b v16 c).1) (some c) =
        (v16, some (c + 2))) ∧
    (0 ≤ c → c + 2 ≤ 1024 → 0 ≤ vu16 → vu16 < 65536 →
      (buffer_append_uint16 b vu16 c).2 = c + 2 ∧
      buffer_get_uint16 (some (buffer_append_uint16 b vu16 c).1) (some c) =
        (vu16, some (c + 2))) ∧
    (0 ≤ c → c + 4 ≤ 1024 → -2147483648 ≤ v32 → v32 < 2147483648 →
      (buffer_append_int32 b v32 c).2 = c + 4 ∧
      buffer_get_int32 (some (buffer_append_int32 b v32 c).1) (some c) =
        (v32, some (c + 4))) ∧
    (0 ≤ c → c + 4 ≤ 1024 → 0 ≤ vu32 → vu32 < 4294967296 →
      (buffer_append_uint32 b vu32 c).2 = c + 4 ∧
      buffer_get_uint32 (some (buffer_append_uint32 b vu32 c).1) (some c) =
        (vu32, some (c + 4))) := by
  refine ⟨fun hc hcw hl hu => ⟨rfl, ?_⟩, fun hc hcw hl hu => ⟨rfl, ?_⟩,
          fun hc hcw hl hu => ⟨rfl, ?_⟩, fun hc hcw hl hu => ⟨rfl, ?_⟩⟩
  · simp only [buffer_get_int16]
    rw [if_neg (by omega), beWord2_append_int16 _ _ _ hc, toInt16_emod _ hl hu]
  · simp only [buffer_get_uint16, append_uint16_eq_int16]
    rw [if_neg (by omega), beWord2_append_int16 _ _ _ hc]
    have : (((vu16 % 65536 : Int)).toNat : Int) = vu16 := by omega
    rw [this]
  · simp only [buffer_get_int32]
    rw [if_neg (by omega), beWord4_append_int32 _ _ _ hc, toInt32_emod _ hl hu]
  · simp only [buffer_get_uint32, append_uint32_eq_int32]
    rw [if_neg (by omega), beWord4_append_int32 _ _ _ hc]
    have : (((vu32 % 4294967296 : Int)).toNat : Int) = vu32 := by omega
    rw [this]

/-- Witness for C4 at concrete inputs. -/
theorem C4_append_get_roundtrip_witness :
    (buffer_append_int16 bufZero (-2) 0).2 = 0 + 2 ∧
    buffer_get_int16 (some (buffer_append_int16 bufZero (-2) 0).1) (some 0) =
      (-2, some (0 + 2)) ∧
    buffer_get_uint16 (some (buffer_append_uint16 bufZero 65535 0).1)
      (some 0) = (65535, some (0 + 2)) ∧
    buffer_get_int32 (some (buffer_append_int32 bufZero (-123456789) 0).1)
      (some 0) = (-123456789, some (0 + 4)) ∧
    buffer_get_uint32 (some (buffer_append_uint32 bufZero 4000000000 0).1)
      (some 0) = (4000000000, some (0 + 4)) := by
  have h := C4_append_get_roundtrip bufZero 0 (-2) 65535 (-123456789) 4000000000
  obtain ⟨h1, h2, h3, h4⟩ := h
  have h1 := h1 (by norm_num) (by norm_num) (by norm_num) (by norm_num)
  have h2 := h2 (by norm_num) (by norm_num) (by norm_num) (by norm_num)
  have h3 := h3 (by norm_num) (by norm_num) (by norm_num) (by norm_num)
  have h4 := h4 (by norm_num) (by norm_num) (by norm_num) (by norm_num)
  exact ⟨h1.1, h1.2, h2.2, h3.2, h4.2⟩

/-! ## Helper lemmas: the legacy tier agrees with the safe tier at 1024
for the four integer getters (identical bodies), hence also for the float
getters that delegate to them. -/

theorem int16_eq_safe_1024 (ob : Option Buf) (oi : Option Int) :
    buffer_get_int16 ob oi = buffer_get_int16_safe ob oi 1024 := by
  cases ob <;> cases oi <;> rfl

theorem uint16_eq_safe_1024 (ob : Option Buf) (oi : Option Int) :
    buffer_get_uint16 ob oi = buffer_get_uint16_safe ob oi 1024 := by
  cases ob <;> cases oi <;> rfl

theorem int32_eq_safe_1024 (ob : Option Buf) (oi : Option Int) :
    buffer_get_int32 ob oi = buffer_get_int32_safe ob oi 1024 := by
  cases ob <;> cases oi <;> rfl

theorem uint32_eq_safe_1024 (ob : Option Buf) (oi : Option Int) :
    buffer_get_uint32 ob oi = buffer_get_uint32_safe ob oi 1024 := by
  cases ob <;> cases oi <;> rfl

theorem cursorOk_some (c L : Int) (h1 : 0 ≤ c) (h2 : c ≤ L) :
    cursorOk (some c) L = true := by
  simp only [cursorOk, Bool.and_eq_true, decide_eq_true_eq]
  exact ⟨h1, h2⟩

/-! ## C1: bounds safety, no out-of-bounds read, zero return -/

/-- C1: for every getter (legacy with limit 1024 or safe with explicit
`buffer_len`) of width `w` (2 for int16/uint16, 4 for int32/uint32, 1 for
bool), and every buffer, cursor `c` and limit `L`: if the buffer or cursor
reference is null, or `c < 0`, or `c + w > L`, then no buffer byte is read
at all (the outcome does not depend on the buffer contents; in particular
no index `≥ L` is read) and the getter returns the type's zero value. -/
theorem C1_bounds_safety (b1 b2 : Buf) (ob : Option Buf) (c L : Int) :
    ((buffer_get_int16 ob none).1 = 0 ∧
     (buffer_get_int16 none (some c)).1 = 0 ∧
     ((c < 0 ∨ c + 2 > 1024) →
       (buffer_get_int16 (some b1) (some c)).1 = 0 ∧
       buffer_get_int16 (some b1) (some c) =
         buffer_get_int16 (some b2) (some c))) ∧
    ((buffer_get_uint16 ob none).1 = 0 ∧
     (buffer_get_uint16 none (some c)).1 = 0 ∧
     ((c < 0 ∨ c + 2 > 1024) →
       (buffer_get_uint16 (some b1) (some c)).1 = 0 ∧
       buffer_get_uint16 (some b1) (some c) =
         buffer_get_uint16 (some b2) (some c))) ∧
    ((buffer_get_int32 ob none).1 = 0 ∧
     (buffer_get_int32 none (some c)).1 = 0 ∧
     ((c < 0 ∨ c + 4 > 1024) →
       (buffer_get_int32 (some b1) (some c)).1 = 0 ∧
       buffer_get_int32 (some b1) (some c) =
         buffer_get_int32 (some b2) (some c))) ∧
    ((buffer_get_uint32 ob none).1 = 0 ∧
     (buffer_get_uint32 none (some c)).1 = 0 ∧
     ((c < 0 ∨ c + 4 > 1024) →
       (buffer_get_uint32 (some b1) (some c)).1 = 0 ∧
       buffer_get_uint32 (some b1) (some c) =
         buffer_get_uint32 (some b2) (some c))) ∧
    ((buffer_get_bool ob none).1 = false ∧
     (buffer_get_bool none (some c)).1 = false ∧
     ((c < 0 ∨ c + 1 > 1024) →
       (buffer_get_bool (some b1) (some c)).1 = false ∧
       buffer_get_bool (some b1) (some c) =
         buffer_get_bool (some b2) (some c))) ∧
    ((buffer_get_int16_safe ob none L).1 = 0 ∧
     (buffer_get_int16_safe none (some c) L).1 = 0 ∧
     ((c < 0 ∨ c + 2 > L) →
       (buffer_get_int16_safe (some b1) (some c) L).1 = 0 ∧
       buffer_get_int16_safe (some b1) (some c) L =
         buffer_get_int16_safe (some b2) (some c) L)) ∧
    ((buffer_get_uint16_safe ob none L).1 = 0 ∧
     (buffer_get_uint16_safe none (some c) L).1 = 0 ∧
     ((c < 0 ∨ c + 2 > L) →
       (buffer_get_uint16_safe (some b1) (some c) L).1 = 0 ∧
       buffer_get_uint16_safe (some b1) (some c) L =
         buffer_get_uint16_safe (some b2) (some c) L)) ∧
    ((buffer_get_int32_safe ob none L).1 = 0 ∧
     (buffer_get_int32_safe none (some c) L).1 = 0 ∧
     ((c < 0 ∨ c + 4 > L) →
       (buffer_get_int32_safe (some b1) (some c) L).1 = 0 ∧
       buffer_get_int32_safe (some b1) (some c) L =
         buffer_get_int32_safe (some b2) (some c) L)) ∧
    ((buffer_get_uint32_safe ob none L).1 = 0 ∧
     (buffer_get_uint32_safe none (some c) L).1 = 0 ∧
     ((c < 0 ∨ c + 4 > L) →
       (buffer_get_uint32_safe (some b1) (some c) L).1 = 0 ∧
       buffer_get_uint32_safe (some b1) (some c) L =
         buffer_get_uint32_safe (some b2) (some c) L)) ∧
    ((buffer_get_bool_safe ob none L).1 = false ∧
     (buffer_get_bool_safe none (some c) L).1 = false ∧
     ((c < 0 ∨ c + 1 > L) →
       (buffer_get_bool_safe (some b1) (some c) L).1 = false ∧
       buffer_get_bool_safe (some b1) (some c) L =
         buffer_get_bool_safe (some b2) (some c) L)) := by
  refine ⟨⟨?_, rfl, fun h => ?_⟩, ⟨?_, rfl, fun h => ?_⟩,
          ⟨?_, rfl, fun h => ?_⟩, ⟨?_, rfl, fun h => ?_⟩,
          ⟨?_, rfl, fun h => ?_⟩, ⟨?_, rfl, fun h => ?_⟩,
          ⟨?_, rfl, fun h => ?_⟩, ⟨?_, rfl, fun h => ?_⟩,
          ⟨?_, rfl, fun h => ?_⟩, ⟨?_, rfl, fun h => ?_⟩⟩ <;>
    first
      | (cases ob <;> rfl)
      | (simp only [buffer_get_int16, buffer_get_uint16, buffer_get_int32,
            buffer_get_uint32, buffer_get_bool, buffer_get_int16_safe,
            buffer_get_uint16_safe, buffer_get_int32_safe,
            buffer_get_uint32_safe, buffer_get_bool_safe]
         rw [if_pos (by omega)]
         refine ⟨rfl, ?_⟩
         conv_rhs => rw [if_pos (by omega)])

/-- Witness for C1 at concrete inputs (cursor `-3` fails every bound). -/
theorem C1_bounds_safety_witness :
    ((buffer_get_int16 (some bufZero) (some (-3))).1 = 0 ∧
     buffer_get_int16 (some bufZero) (some (-3)) =
       buffer_get_int16 (some bufSeq) (some (-3))) ∧
    ((buffer_get_bool (some bufZero) (some (-3))).1 = false ∧
     buffer_get_bool (some bufZero) (some (-3)) =
       buffer_get_bool (some bufSeq) (some (-3))) ∧
    ((buffer_get_uint32_safe (some bufZero) (some (-3)) 8).1 = 0 ∧
     buffer_get_uint32_safe (some bufZero) (some (-3)) 8 =
       buffer_get_uint32_safe (some bufSeq) (some (-3)) 8) ∧
    ((buffer_get_bool_safe (some bufZero) (some (-3)) 8).1 = false ∧
     buffer_get_bool_safe (some bufZero) (some (-3)) 8 =
       buffer_get_bool_safe (some bufSeq) (some (-3)) 8) := by
  have h := C1_bounds_safety bufZero bufSeq (some bufZero) (-3) 8
  exact ⟨h.1.2.2 (Or.inl (by norm_num)),
         h.2.2.2.2.1.2.2 (Or.inl (by norm_num)),
         h.2.2.2.2.2.2.2.2.1.2.2 (Or.inl (by norm_num)),
         h.2.2.2.2.2.2.2.2.2.2.2 (Or.inl (by norm_num))⟩

/-! ## C5: failure clamp to the limit for width-2 and width-4 getters -/

/-- C5: for every width-2 and width-4 getter (int16/uint16/int32/uint32,
legacy and safe), whenever the bounds precondition fails (null buffer,
`cursor < 0`, or `cursor + width > limit`) and the cursor reference is
non-null, the getter sets the cursor to exactly the limit and returns 0. -/
theorem C5_clamp_to_limit (ob : Option Buf) (c L : Int) :
    ((ob = none ∨ c < 0 ∨ c + 2 > 1024) →
      buffer_get_int16 ob (some c) = (0, some 1024)) ∧
    ((ob = none ∨ c < 0 ∨ c + 2 > 1024) →
      buffer_get_uint16 ob (some c) = (0, some 1024)) ∧
    ((ob = none ∨ c < 0 ∨ c + 4 > 1024) →
      buffer_get_int32 ob (some c) = (0, some 1024)) ∧
    ((ob = none ∨ c < 0 ∨ c + 4 > 1024) →
      buffer_get_uint32 ob (some c) = (0, some 1024)) ∧
    ((ob = none ∨ c < 0 ∨ c + 2 > L) →
      buffer_get_int16_safe ob (some c) L = (0, some L)) ∧
    ((ob = none ∨ c < 0 ∨ c + 2 > L) →
      buffer_get_uint16_safe ob (some c) L = (0, some L)) ∧
    ((ob = none ∨ c < 0 ∨ c + 4 > L) →
      buffer_get_int32_safe ob (some c) L = (0, some L)) ∧
    ((ob = none ∨ c < 0 ∨ c + 4 > L) →
      buffer_get_uint32_safe ob (some c) L = (0, some L)) := by
  cases ob with
  | none => exact ⟨fun _ => rfl, fun _ => rfl, fun _ => rfl, fun _ => rfl,
      fun _ => rfl, fun _ => rfl, fun _ => rfl, fun _ => rfl⟩
  | some b =>
    refine ⟨fun h => ?_, fun h => ?_, fun h => ?_, fun h => ?_,
            fun h => ?_, fun h => ?_, fun h => ?_, fun h => ?_⟩ <;>
      · simp only [buffer_get_int16, buffer_get_uint16, buffer_get_int32,
          buffer_get_uint32, buffer_get_int16_safe, buffer_get_uint16_safe,
          buffer_get_int32_safe, buffer_get_uint32_safe]
        simp only [reduceCtorEq, false_or] at h
        rw [if_pos (by omega)]

/-- Witness for C5 at concrete inputs. -/
theorem C5_clamp_to_limit_witness :
    buffer_get_int16 (some bufZero) (some 1023) = (0, some 1024) ∧
    buffer_get_uint32 (some bufZero) (some 1021) = (0, some 1024) ∧
    buffer_get_int16_safe (some bufZero) (some 7) 8 = (0, some 8) ∧
    buffer_get_uint32_safe (some bufZero) (some 5) 8 = (0, some 8) := by
  refine ⟨(C5_clamp_to_limit (some bufZero) 1023 8).1 (by norm_num),
          ((C5_clamp_to_limit (some bufZero) 1021 8).2.2.2.1) (by norm_num),
          ?_, ?_⟩
  · exact (C5_clamp_to_limit (some bufZero) 7 8).2.2.2.2.1 (by norm_num)
  · exact (C5_clamp_to_limit (some bufZero) 5 8).2.2.2.2.2.2.2 (by norm_num)

/-! ## C10: safe getters trust buffer_len, including negative values -/

/-- C10: every safe getter of width 2 or 4 called with a non-null buffer and
cursor and any `buffer_len < cursor + width` (including zero or negative
`buffer_len`) assigns the cursor the value `buffer_len` itself and returns 0;
in particular a negative `buffer_len` leaves the cursor negative rather than
clamped to a non-negative position. -/
theorem C10_negative_buffer_len (b : Buf) (c L : Int) :
    (L < c + 2 → buffer_get_int16_safe (some b) (some c) L = (0, some L)) ∧
    (L < c + 2 → buffer_get_uint16_safe (some b) (some c) L = (0, some L)) ∧
    (L < c + 4 → buffer_get_int32_safe (some b) (some c) L = (0, some L)) ∧
    (L < c + 4 → buffer_get_uint32_safe (some b) (some c) L = (0, some L)) := by
  refine ⟨fun h => ?_, fun h => ?_, fun h => ?_, fun h => ?_⟩ <;>
    · simp only [buffer_get_int16_safe, buffer_get_uint16_safe,
        buffer_get_int32_safe, buffer_get_uint32_safe]
      rw [if_pos (by omega)]

/-- Witness for C10: with `buffer_len = -7` the cursor is left at `-7`. -/
theorem C10_negative_buffer_len_witness :
    buffer_get_int16_safe (some bufZero) (some 5) (-7) = (0, some (-7)) ∧
    buffer_get_uint32_safe (some bufZero) (some 5) (-7) = (0, some (-7)) := by
  exact ⟨(C10_negative_buffer_len bufZero 5 (-7)).1 (by norm_num),
         (C10_negative_buffer_len bufZero 5 (-7)).2.2.2 (by norm_num)⟩

/-! ## C6: get_bool failure-path cursor policy (corrected) -/

/-- C6 (amended): for every call of `get_bool_safe` failing its precondition
(null buffer, `cursor < 0`, or `cursor ≥ buffer_len`) with a non-null cursor
reference, the function returns `false` and the cursor is left at
`original + 1` when the original cursor was strictly below the limit, and
unchanged otherwise.  The legacy `get_bool`, however, always advances the
cursor by 1 on precondition failure, even when the original cursor is not
below 1024. -/
theorem C6_bool_failure_cursor (ob : Option Buf) (c L : Int) :
    ((ob = none ∨ c < 0 ∨ c ≥ L) →
      buffer_get_bool_safe ob (some c) L =
        (false, some (if c < L then c + 1 else c))) ∧
    ((ob = none ∨ c < 0 ∨ c ≥ 1024) →
      buffer_get_bool ob (some c) = (false, some (c + 1))) := by
  cases ob with
  | none => exact ⟨fun _ => rfl, fun _ => rfl⟩
  | some b =>
    constructor <;> intro h <;>
      simp only [reduceCtorEq, false_or] at h
    · simp only [buffer_get_bool_safe]
      rw [if_pos h]
    · simp only [buffer_get_bool]
      rw [if_pos h]

/-- Counterexample for C6 as stated: at cursor 1024 (not strictly below the
limit 1024) the legacy `get_bool` still advances the cursor to 1025 instead
of leaving it unchanged. -/
theorem C6_bool_failure_cursor_cex :
    buffer_get_bool (some bufZero) (some 1024) = (false, some 1025) ∧
    some (1025 : Int) ≠ some (1024 : Int) := by
  exact ⟨by decide, by decide⟩

/-- Witness for C6 at concrete inputs. -/
theorem C6_bool_failure_cursor_witness :
    buffer_get_bool_safe (some bufZero) (some 9) 8 = (false, some 9) ∧
    buffer_get_bool (some bufZero) (some (-1)) = (false, some 0) := by
  have h := C6_bool_failure_cursor (some bufZero) 9 8
  have h2 := C6_bool_failure_cursor (some bufZero) (-1) 1024
  constructor
  · have := h.1 (Or.inr (Or.inr (by norm_num)))
    simpa using this
  · have := h2.2 (Or.inr (Or.inl (by norm_num)))
    simpa using this

/-! ## C2: cursor range invariant (corrected) -/

theorem cursorOk_get_int16 (ob : Option Buf) (c : Int) :
    cursorOk (buffer_get_int16 ob (some c)).2 1024 = true := by
  cases ob with
  | none => exact cursorOk_some _ _ (by norm_num) (by norm_num)
  | some b =>
    by_cases hc : c < 0 ∨ c + 1 ≥ 1024
    · simp only [buffer_get_int16, if_pos hc]
      exact cursorOk_some _ _ (by norm_num) (by norm_num)
    · simp only [buffer_get_int16, if_neg hc]
      exact cursorOk_some _ _ (by omega) (by omega)

theorem cursorOk_get_uint16 (ob : Option Buf) (c : Int) :
    cursorOk (buffer_get_uint16 ob (some c)).2 1024 = true := by
  cases ob with
  | none => exact cursorOk_some _ _ (by norm_num) (by norm_num)
  | some b =>
    by_cases hc : c < 0 ∨ c + 1 ≥ 1024
    · simp only [buffer_get_uint16, if_pos hc]
      exact cursorOk_some _ _ (by norm_num) (by norm_num)
    · simp only [buffer_get_uint16, if_neg hc]
      exact cursorOk_some _ _ (by omega) (by omega)

theorem cursorOk_get_int32 (ob : Option Buf) (c : Int) :
    cursorOk (buffer_get_int32 ob (some c)).2 1024 = true := by
  cases ob with
  | none => exact cursorOk_some _ _ (by norm_num) (by norm_num)
  | some b =>
    by_cases hc : c < 0 ∨ c + 3 ≥ 1024
    · simp only [buffer_get_int32, if_pos hc]
      exact cursorOk_some _ _ (by norm_num) (by norm_num)
    · simp only [buffer_get_int32, if_neg hc]
      exact cursorOk_some _ _ (by omega) (by omega)

theorem cursorOk_get_uint32 (ob : Option Buf) (c : Int) :
    cursorOk (buffer_get_uint32 ob (some c)).2 1024 = true := by
  cases ob with
  | none => exact cursorOk_some _ _ (by norm_num) (by norm_num)
  | some b =>
    by_cases hc : c < 0 ∨ c + 3 ≥ 1024
    · simp only [buffer_get_uint32, if_pos hc]
      exact cursorOk_some _ _ (by norm_num) (by norm_num)
    · simp only [buffer_get_uint32, if_neg hc]
      exact cursorOk_some _ _ (by omega) (by omega)

theorem cursorOk_get_int16_safe (ob : Option Buf) (c L : Int) (hL : 0 ≤ L) :
    cursorOk (buffer_get_int16_safe ob (some c) L).2 L = true := by
  cases ob with
  | none => exact cursorOk_some _ _ hL le_rfl
  | some b =>
    by_cases hc : c < 0 ∨ c + 1 ≥ L
    · simp only [buffer_get_int16_safe, if_pos hc]
      exact cursorOk_some _ _ hL le_rfl
    · simp only [buffer_get_int16_safe, if_neg hc]
      exact cursorOk_some _ _ (by omega) (by omega)

theorem cursorOk_get_uint16_safe (ob : Option Buf) (c L : Int) (hL : 0 ≤ L) :
    cursorOk (buffer_get_uint16_safe ob (some c) L).2 L = true := by
  cases ob with
  | none => exact cursorOk_some _ _ hL le_rfl
  | some b =>
    by_cases hc : c < 0 ∨ c + 1 ≥ L
    · simp only [buffer_get_uint16_safe, if_pos hc]
      exact cursorOk_some _ _ hL le_rfl
    · simp only [buffer_get_uint16_safe, if_neg hc]
      exact cursorOk_some _ _ (by omega) (by omega)

theorem cursorOk_get_int32_safe (ob : Option Buf) (c L : Int) (hL : 0 ≤ L) :
    cursorOk (buffer_get_int32_safe ob (some c) L).2 L = true := by
  cases ob with
  | none => exact cursorOk_some _ _ hL le_rfl
  | some b =>
    by_cases hc : c < 0 ∨ c + 3 ≥ L
    · simp only [buffer_get_int32_safe, if_pos hc]
      exact cursorOk_some _ _ hL le_rfl
    · simp only [buffer_get_int32_safe, if_neg hc]
      exact cursorOk_some _ _ (by omega) (by omega)

theorem cursorOk_get_uint32_safe (ob : Option Buf) (c L : Int) (hL : 0 ≤ L) :
    cursorOk (buffer_get_uint32_safe ob (some c) L).2 L = true := by
  cases ob with
  | none => exact cursorOk_some _ _ hL le_rfl
  | some b =>
    by_cases hc : c < 0 ∨ c + 3 ≥ L
    · simp only [buffer_get_uint32_safe, if_pos hc]
      exact cursorOk_some _ _ hL le_rfl
    · simp only [buffer_get_uint32_safe, if_neg hc]
      exact cursorOk_some _ _ (by omega) (by omega)

/-- C2 (amended): after a decode call with a non-null cursor through the
int16/uint16/int32/uint32, float16 or float32_auto getters (legacy with
limit 1024, or safe with `buffer_len ≥ 0`), the final cursor lies in
`[0, limit]`; the same holds for `get_float32` on a non-null buffer with a
nonzero finite scale.  The bool getters and `get_float32`'s invalid-scale
skip and null-pointer paths do not satisfy the invariant (see the
counterexample). -/
theorem C2_cursor_invariant (ob : Option Buf) (b : Buf) (c L : Int)
    (s sc : FVal) :
    cursorOk (buffer_get_int16 ob (some c)).2 1024 = true ∧
    cursorOk (buffer_get_uint16 ob (some c)).2 1024 = true ∧
    cursorOk (buffer_get_int32 ob (some c)).2 1024 = true ∧
    cursorOk (buffer_get_uint32 ob (some c)).2 1024 = true ∧
    cursorOk (buffer_get_float16 ob s (some c)).2 1024 = true ∧
    cursorOk (buffer_get_float32_auto ob (some c)).2 1024 = true ∧
    (sc ≠ FVal.fin 0 → sc.isfinite = true →
      cursorOk (buffer_get_float32 (some b) sc (some c)).2 1024 = true) ∧
    (0 ≤ L → cursorOk (buffer_get_int16_safe ob (some c) L).2 L = true) ∧
    (0 ≤ L → cursorOk (buffer_get_uint16_safe ob (some c) L).2 L = true) ∧
    (0 ≤ L → cursorOk (buffer_get_int32_safe ob (some c) L).2 L = true) ∧
    (0 ≤ L → cursorOk (buffer_get_uint32_safe ob (some c) L).2 L = true) ∧
    (0 ≤ L →
      cursorOk (buffer_get_float16_safe ob s (some c) L).2 L = true) ∧
    (0 ≤ L →
      cursorOk (buffer_get_float32_auto_safe ob (some c) L).2 L = true) ∧
    (0 ≤ L → sc ≠ FVal.fin 0 → sc.isfinite = true →
      cursorOk (buffer_get_float32_safe (some b) sc (some c) L).2 L =
        true) := by
  refine ⟨cursorOk_get_int16 ob c, cursorOk_get_uint16 ob c,
          cursorOk_get_int32 ob c, cursorOk_get_uint32 ob c,
          cursorOk_get_int16 ob c, cursorOk_get_uint32 ob c,
          fun h1 h2 => ?_,
          fun hL => cursorOk_get_int16_safe ob c L hL,
          fun hL => cursorOk_get_uint16_safe ob c L hL,
          fun hL => cursorOk_get_int32_safe ob c L hL,
          fun hL => cursorOk_get_uint32_safe ob c L hL,
          fun hL => cursorOk_get_int16_safe ob c L hL,
          fun hL => cursorOk_get_uint32_safe ob c L hL,
          fun hL h1 h2 => ?_⟩
  · have hval : ¬ (sc = FVal.fin 0 ∨ sc.isfinite = false) := by
      rintro (h | h)
      · exact h1 h
      · rw [h2] at h
        exact Bool.noConfusion h
    simp only [buffer_get_float32]
    rw [if_neg hval]
    exact cursorOk_get_int32 (some b) c
  · have hval : ¬ (sc = FVal.fin 0 ∨ sc.isfinite = false) := by
      rintro (h | h)
      · exact h1 h
      · rw [h2] at h
        exact Bool.noConfusion h
    simp only [buffer_get_float32_safe]
    rw [if_neg hval]
    exact cursorOk_get_int32_safe (some b) c L hL

/-- Counterexample for C2 as stated: the legacy `get_bool` called at cursor
1024 leaves the cursor at 1025, strictly past the limit 1024. -/
theorem C2_cursor_invariant_cex :
    (buffer_get_bool (some bufZero) (some 1024)).2 = some 1025 ∧
    cursorOk (buffer_get_bool (some bufZero) (some 1024)).2 1024 = false := by
  exact ⟨by decide, by decide⟩

/-- Witness for C2 at concrete inputs. -/
theorem C2_cursor_invariant_witness :
    cursorOk (buffer_get_int16 (some bufZero) (some 3)).2 1024 = true ∧
    cursorOk (buffer_get_float32 (some bufZero) (FVal.fin 1) (some 3)).2
      1024 = true ∧
    cursorOk (buffer_get_uint32_safe (some bufZero) (some 3) 8).2 8 = true ∧
    cursorOk (buffer_get_float32_safe (some bufZero) (FVal.fin 1) (some 3) 8).2
      8 = true := by
  have h := C2_cursor_invariant (some bufZero) bufZero 3 8 (FVal.fin 1)
    (FVal.fin 1)
  refine ⟨h.1, h.2.2.2.2.2.2.1 ?_ ?_, h.2.2.2.2.2.2.2.2.2.2.1 (by norm_num),
          h.2.2.2.2.2.2.2.2.2.2.2.2.2 (by norm_num) ?_ ?_⟩ <;>
    first
      | (intro hcon; cases hcon)
      | (simp only [FVal.isfinite, decide_eq_true_eq]
         rw [abs_of_nonneg (by norm_num)]
         norm_num)

/-! ## C7: invalid-scale skip in get_float32 -/

/-- C7: for every buffer, cursor `c` with `c + 4 ≤ limit`, and scale that is
zero or non-finite, `get_float32` (legacy with limit 1024, safe with limit
`buffer_len`) returns `0.0` and advances the cursor by exactly 4 without
reading any buffer byte (the outcome does not depend on buffer contents). -/
theorem C7_invalid_scale_skip (b1 b2 : Buf) (c L : Int) (s : FVal)
    (hs : s = FVal.fin 0 ∨ s.isfinite = false) :
    (c + 4 ≤ 1024 →
      buffer_get_float32 (some b1) s (some c) = (FVal.fin 0, some (c + 4)) ∧
      buffer_get_float32 (some b1) s (some c) =
        buffer_get_float32 (some b2) s (some c)) ∧
    (c + 4 ≤ L →
      buffer_get_float32_safe (some b1) s (some c) L =
        (FVal.fin 0, some (c + 4)) ∧
      buffer_get_float32_safe (some b1) s (some c) L =
        buffer_get_float32_safe (some b2) s (some c) L) := by
  constructor
  · intro hcl
    have hskip : ∀ bb : Buf,
        buffer_get_float32 (some bb) s (some c) =
          (FVal.fin 0, some (c + 4)) := by
      intro bb
      simp only [buffer_get_float32, if_pos hs]
    rw [hskip b1, hskip b2]
    exact ⟨rfl, rfl⟩
  · intro hcl
    have hskip : ∀ bb : Buf,
        buffer_get_float32_safe (some bb) s (some c) L =
          (FVal.fin 0, some (c + 4)) := by
      intro bb
      simp only [buffer_get_float32_safe, if_pos hs]
      rw [if_pos (by omega : c + 3 < L)]
    rw [hskip b1, hskip b2]
    exact ⟨rfl, rfl⟩

/-- Witness for C7 with a NaN/Inf scale at cursor 0. -/
theorem C7_invalid_scale_skip_witness :
    buffer_get_float32 (some bufZero) FVal.nonfin (some 0) =
      (FVal.fin 0, some 4) ∧
    buffer_get_float32 (some bufZero) FVal.nonfin (some 0) =
      buffer_get_float32 (some bufSeq) FVal.nonfin (some 0) ∧
    buffer_get_float32_safe (some bufZero) FVal.nonfin (some 0) 4 =
      (FVal.fin 0, some 4) ∧
    buffer_get_float32_safe (some bufZero) FVal.nonfin (some 0) 4 =
      buffer_get_float32_safe (some bufSeq) FVal.nonfin (some 0) 4 := by
  have h := C7_invalid_scale_skip bufZero bufSeq 0 4 FVal.nonfin
    (Or.inr rfl)
  have h1 := h.1 (by norm_num)
  have h2 := h.2 (by norm_num)
  exact ⟨by simpa using h1.1, h1.2, by simpa using h2.1, h2.2⟩

/-! ## C8: legacy tier versus safe tier at buffer_len 1024 (corrected) -/

/-- C8 (amended): for int16, uint16, int32, uint32, float16 and
float32_auto, the legacy getter agrees with the corresponding safe getter
at `buffer_len = 1024` on every buffer, cursor and scale.  For `get_bool`
the two agree whenever the cursor is null or below 1024; for `get_float32`
they agree whenever the cursor is null, or buffer and cursor are non-null
and an invalid scale implies `cursor + 4 ≤ 1024`.  In the remaining cases
(bool cursor `≥ 1024`; float32 null buffer with non-null cursor, or invalid
scale with `cursor + 4 > 1024`) the failure-path cursor updates differ. -/
theorem C8_legacy_safe_agree (ob : Option Buf) (oi : Option Int) (b : Buf)
    (c : Int) (s : FVal) :
    buffer_get_int16 ob oi = buffer_get_int16_safe ob oi 1024 ∧
    buffer_get_uint16 ob oi = buffer_get_uint16_safe ob oi 1024 ∧
    buffer_get_int32 ob oi = buffer_get_int32_safe ob oi 1024 ∧
    buffer_get_uint32 ob oi = buffer_get_uint32_safe ob oi 1024 ∧
    buffer_get_float16 ob s oi = buffer_get_float16_safe ob s oi 1024 ∧
    buffer_get_float32_auto ob oi = buffer_get_float32_auto_safe ob oi 1024 ∧
    buffer_get_bool ob none = buffer_get_bool_safe ob none 1024 ∧
    (c < 1024 →
      buffer_get_bool ob (some c) = buffer_get_bool_safe ob (some c) 1024) ∧
    buffer_get_float32 ob s none = buffer_get_float32_safe ob s none 1024 ∧
    (((s = FVal.fin 0 ∨ s.isfinite = false) → c + 4 ≤ 1024) →
      buffer_get_float32 (some b) s (some c) =
        buffer_get_float32_safe (some b) s (some c) 1024) := by
  refine ⟨int16_eq_safe_1024 ob oi, uint16_eq_safe_1024 ob oi,
          int32_eq_safe_1024 ob oi, uint32_eq_safe_1024 ob oi, ?_, ?_, ?_,
          fun hc => ?_, ?_, fun himp => ?_⟩
  · unfold buffer_get_float16 buffer_get_float16_safe
    rw [int16_eq_safe_1024]
  · unfold buffer_get_float32_auto buffer_get_float32_auto_safe
    rw [uint32_eq_safe_1024]
  · cases ob <;> rfl
  · cases ob with
    | none =>
      simp only [buffer_get_bool, buffer_get_bool_safe]
      rw [if_pos hc]
    | some b2 =>
      by_cases h : c < 0 ∨ c ≥ 1024
      · simp only [buffer_get_bool, buffer_get_bool_safe, if_pos h]
        rw [if_pos hc]
      · simp only [buffer_get_bool, buffer_get_bool_safe, if_neg h]
  · by_cases h : s = FVal.fin 0 ∨ s.isfinite = false
    · cases ob <;> simp only [buffer_get_float32, buffer_get_float32_safe,
        if_pos h]
    · obtain ⟨q, hq, rfl⟩ : ∃ q, q ≠ 0 ∧ s = FVal.fin q := by
        cases s with
        | fin q => exact ⟨q, fun h0 => h (Or.inl (by rw [h0])), rfl⟩
        | nonfin => exact absurd (Or.inr rfl) h
      cases ob <;>
        · simp only [buffer_get_float32, buffer_get_float32_safe, if_neg h,
            buffer_get_int32_safe, FVal.divIntF, if_neg hq]
          norm_num [FVal.isfinite]
  · by_cases h : s = FVal.fin 0 ∨ s.isfinite = false
    · have hc4 := himp h
      simp only [buffer_get_float32, buffer_get_float32_safe, if_pos h]
      rw [if_pos (by omega : c + 3 < 1024)]
    · simp only [buffer_get_float32, buffer_get_float32_safe, if_neg h]
      rw [int32_eq_safe_1024]

/-- Counterexample for C8 as stated: at cursor 1024 the legacy `get_bool`
and `get_bool_safe` with `buffer_len = 1024` leave different cursors
(1025 versus 1024). -/
theorem C8_legacy_safe_agree_cex :
    buffer_get_bool (some bufZero) (some 1024) ≠
      buffer_get_bool_safe (some bufZero) (some 1024) 1024 := by
  decide

/-- Witness for C8 at concrete inputs. -/
theorem C8_legacy_safe_agree_witness :
    buffer_get_int16 (some bufZero) (some 5) =
      buffer_get_int16_safe (some bufZero) (some 5) 1024 ∧
    buffer_get_bool (some bufZero) (some 5) =
      buffer_get_bool_safe (some bufZero) (some 5) 1024 ∧
    buffer_get_float32 (some bufZero) FVal.nonfin (some 5) =
      buffer_get_float32_safe (some bufZero) FVal.nonfin (some 5) 1024 := by
  have h := C8_legacy_safe_agree (some bufZero) (some 5) bufZero 5
    FVal.nonfin
  exact ⟨h.1, h.2.2.2.2.2.2.2.1 (by norm_num),
         h.2.2.2.2.2.2.2.2.2 (fun _ => by norm_num)⟩

/-! ## C3: the auto-float decode formula -/

theorem autoUnpack_eq_spec (res : Nat) : autoUnpack res = specAutoDecode res := by
  simp only [autoUnpack, specAutoDecode]
  by_cases hc : (((res / 2 ^ 23) % 256 : Nat) : Int) = 0 ∧ res % 2 ^ 23 = 0
  · have hn : ¬ ((((res / 2 ^ 23) % 256 : Nat) : Int) ≠ 0 ∨
        res % 2 ^ 23 ≠ 0) := by
      push_neg
      exact hc
    rw [if_pos hc, if_neg hn, if_neg hn, hc.1]
    norm_num
  · have hc' : (((res / 2 ^ 23) % 256 : Nat) : Int) ≠ 0 ∨
        res % 2 ^ 23 ≠ 0 := by
      by_contra hcon
      push_neg at hcon
      exact hc ⟨hcon.1, hcon.2⟩
    rw [if_neg hc, if_pos hc', if_pos hc']
    norm_num

/-- C3: for every 32-bit word read in bounds by `get_float32_auto` (legacy
or safe), the returned value equals the specification formula: with `e` =
bits 30-23, `sig_i` = bits 22-0 and `sign` = bit 31 of the big-endian word,
the value is 0.0 when `e == 0` and `sig_i == 0`, and otherwise `ldexp` of
significand `sig_i / 2^24 + 0.5` (negated when the sign bit is set) and
exponent `e - 126`, with a non-finite recomposition replaced by 0.0. -/
theorem C3_auto_decode_formula (b : Buf) (c L : Int) :
    (0 ≤ c → c + 4 ≤ 1024 →
      (buffer_get_float32_auto (some b) (some c)).1 =
        specAutoDecode (beWord4 b c)) ∧
    (0 ≤ c → c + 4 ≤ L →
      (buffer_get_float32_auto_safe (some b) (some c) L).1 =
        specAutoDecode (beWord4 b c)) := by
  constructor
  · intro h1 h2
    simp only [buffer_get_float32_auto, buffer_get_uint32]
    rw [if_neg (by omega)]
    simpa using autoUnpack_eq_spec (beWord4 b c)
  · intro h1 h2
    simp only [buffer_get_float32_auto_safe, buffer_get_uint32_safe]
    rw [if_neg (by omega)]
    simpa using autoUnpack_eq_spec (beWord4 b c)

/-- Witness for C3 on the varying buffer at cursor 0. -/
theorem C3_auto_decode_formula_witness :
    (buffer_get_float32_auto (some bufSeq) (some 0)).1 =
      specAutoDecode (beWord4 bufSeq 0) ∧
    (buffer_get_float32_auto_safe (some bufSeq) (some 0) 4).1 =
      specAutoDecode (beWord4 bufSeq 0) := by
  have h := C3_auto_decode_formula bufSeq 0 4
  exact ⟨h.1 (by norm_num) (by norm_num), h.2 (by norm_num) (by norm_num)⟩

/-! ## C9: auto-float round-trip.  Numeric groundwork first. -/

theorem two_zpow_pos (e : Int) : (0:ℚ) < 2 ^ e := zpow_pos (by norm_num) e

theorem subLimit_pos : (0:ℚ) < subnormalLimit := by
  unfold subnormalLimit
  positivity

/-- The flush threshold `1.5e-38` lies strictly above the least normal
binary32 magnitude `2^-126`. -/
theorem zpow_neg126_lt_subLimit : (2:ℚ) ^ (-126 : Int) < subnormalLimit := by
  have h2 : ((2:ℚ) ^ (-126 : Int)) * 2 ^ (178:ℕ) = 2 ^ (52:ℕ) := by
    rw [← zpow_natCast (2:ℚ) 178, ← zpow_natCast (2:ℚ) 52,
        ← zpow_add₀ (by norm_num : (2:ℚ) ≠ 0)]
    norm_num
  rw [subnormalLimit, lt_div_iff₀ (by positivity : (0:ℚ) < 2 ^ 178), h2]
  norm_num

theorem sigVal_pos (frac : Nat) : (0:ℚ) < (2 ^ 23 + (frac:ℚ)) / 2 ^ 24 := by
  positivity

theorem sigVal_lt_one (frac : Nat) (h : frac < 2 ^ 23) :
    (2 ^ 23 + (frac:ℚ)) / 2 ^ 24 < 1 := by
  rw [div_lt_one (by positivity)]
  have h' : frac < 8388608 := by omega
  have h2 : (frac : ℚ) < 8388608 := by exact_mod_cast h'
  norm_num
  linarith

theorem half_le_sigVal (frac : Nat) :
    1 / 2 ≤ (2 ^ 23 + (frac:ℚ)) / 2 ^ 24 := by
  rw [div_le_div_iff₀ (by norm_num) (by positivity)]
  have h2 : (0:ℚ) ≤ (frac:ℚ) := Nat.cast_nonneg frac
  norm_num
  linarith

theorem floatVal_abs (sign : Bool) (frac : Nat) (expo : Int) :
    |floatVal sign frac expo| = (2 ^ 23 + (frac:ℚ)) / 2 ^ 24 * 2 ^ expo := by
  unfold floatVal
  cases sign <;>
    · rw [abs_mul, abs_mul, abs_of_pos (sigVal_pos frac),
        abs_of_pos (two_zpow_pos expo)]
      norm_num

/-- A value at or above the flush threshold has frexp exponent `≥ -125`. -/
theorem expo_ge_neg125 (sign : Bool) (frac : Nat) (expo : Int)
    (hfrac : frac < 2 ^ 23)
    (hD : subnormalLimit ≤ |floatVal sign frac expo|) : -125 ≤ expo := by
  by_contra hcon
  push_neg at hcon
  have h1 : |floatVal sign frac expo| < 2 ^ expo := by
    rw [floatVal_abs]
    calc ((2 ^ 23 + (frac:ℚ)) / 2 ^ 24) * 2 ^ expo
        < 1 * 2 ^ expo :=
          mul_lt_mul_of_pos_right (sigVal_lt_one frac hfrac)
            (two_zpow_pos expo)
      _ = 2 ^ expo := one_mul _
  have h2 : (2:ℚ) ^ expo ≤ 2 ^ (-126 : Int) :=
    zpow_le_zpow_right₀ (by norm_num) (by omega)
  have h3 := zpow_neg126_lt_subLimit
  linarith

/-- A value with frexp exponent `≤ 128` stays strictly below `2^128`. -/
theorem floatVal_lt_two_pow_128 (sign : Bool) (frac : Nat) (expo : Int)
    (hfrac : frac < 2 ^ 23) (he : expo ≤ 128) :
    |floatVal sign frac expo| < 2 ^ (128:ℕ) := by
  rw [floatVal_abs]
  calc ((2 ^ 23 + (frac:ℚ)) / 2 ^ 24) * 2 ^ expo
      < 1 * 2 ^ expo :=
        mul_lt_mul_of_pos_right (sigVal_lt_one frac hfrac) (two_zpow_pos expo)
    _ = 2 ^ expo := one_mul _
    _ ≤ 2 ^ (128 : Int) := zpow_le_zpow_right₀ (by norm_num) he
    _ = 2 ^ (128 : ℕ) := by norm_num

theorem ratFloor_eq_intFloor (q : ℚ) : q.floor = ⌊q⌋ := by
  rw [Rat.floor_def, Rat.floor_def']

/-- Above the flush threshold, `buffer_append_float32_auto` packs exactly
the word `(expo + 126) << 23 | frac | sign << 31`. -/
theorem append_auto_encodes (b : Buf) (sign : Bool) (frac : Nat)
    (expo c : Int) (hfrac : frac < 2 ^ 23) (he1 : -125 ≤ expo)
    (he2 : expo ≤ 128) (hD : subnormalLimit ≤ |floatVal sign frac expo|) :
    buffer_append_float32_auto b (F32.num sign frac expo) c =
      buffer_append_uint32 b
        (((expo + 126).toNat * 2 ^ 23 + frac +
          (if sign then 2 ^ 31 else 0) : Nat) : Int) c := by
  have hm_pos := sigVal_pos frac
  have habs2 : |(if sign then (-1:ℚ) else 1) * ((2 ^ 23 + (frac:ℚ)) / 2 ^ 24)| =
      (2 ^ 23 + (frac:ℚ)) / 2 ^ 24 := by
    cases sign <;>
      · rw [abs_mul]
        rw [abs_of_pos hm_pos]
        norm_num
  have hfloor : (((2 ^ 23 + (frac:ℚ)) / 2 ^ 24 - 1 / 2) * 2 * 8388608).floor
      = (frac : Int) := by
    have hq : ((2 ^ 23 + (frac:ℚ)) / 2 ^ 24 - 1 / 2) * 2 * 8388608 = (frac : ℚ) := by
      field_simp
      ring
    rw [hq, ratFloor_eq_intFloor, Int.floor_natCast]
  have hsign : (if (if sign = true then (-1:ℚ) else 1) *
        ((2 ^ 23 + (frac:ℚ)) / 2 ^ 24) < 0 then (2 ^ 31 : Nat) else 0) =
      (if sign = true then (2 ^ 31 : Nat) else 0) := by
    cases sign
    · simp only [Bool.false_eq_true, if_false, one_mul]
      rw [if_neg (not_lt.mpr hm_pos.le)]
    · simp only [if_true]
      rw [if_pos (by linarith : (-1:ℚ) * ((2 ^ 23 + (frac:ℚ)) / 2 ^ 24) < 0)]
  simp only [buffer_append_float32_auto, F32.val]
  simp only [if_neg (not_lt.mpr hD)]
  simp only [F32.frexpSig, F32.frexpExp]
  rw [habs2]
  rw [if_pos (half_le_sigVal frac), if_pos (half_le_sigVal frac)]
  rw [hfloor]
  rw [Int.toNat_natCast]
  rw [Int.emod_eq_of_lt (by omega) (by omega)]
  rw [Nat.mod_eq_of_lt hfrac]
  rw [hsign]

/-- Below the flush threshold (this covers the input `0.0` itself),
`buffer_append_float32_auto` packs the all-zero word. -/
theorem append_auto_flush (b : Buf) (v : F32) (c : Int)
    (hflush : |F32.val v| < subnormalLimit) :
    buffer_append_float32_auto b v c =
      buffer_append_uint32 b ((0:Nat) : Int) c := by
  simp only [buffer_append_float32_auto]
  simp only [if_pos hflush]
  simp only [F32.frexpSig, F32.frexpExp]
  rw [abs_zero]
  rw [if_neg (by norm_num : ¬ (1/2 : ℚ) ≤ 0),
      if_neg (by norm_num : ¬ (1/2 : ℚ) ≤ 0)]
  norm_num

/-- Reading back an appended 32-bit word in bounds returns it exactly. -/
theorem get_uint32_append (b : Buf) (n : Nat) (c : Int) (hc : 0 ≤ c)
    (hc4 : c + 4 ≤ 1024) (hn : n < 4294967296) :
    buffer_get_uint32 (some (buffer_append_uint32 b (n : Int) c).1) (some c) =
      ((n : Int), some (c + 4)) := by
  simp only [buffer_get_uint32]
  rw [if_neg (by omega)]
  rw [append_uint32_eq_int32, beWord4_append_int32 _ _ _ hc]
  have h2 : (((n : Int) % 4294967296).toNat : Int) = (n : Int) := by omega
  rw [h2]

/-- Unpacking the word `E << 23 | frac | S << 31` with `1 ≤ E ≤ 254`
recovers the value of the decomposition `(sign = (S = 1), frac, E - 126)`
exactly. -/
theorem autoUnpack_word (S frac E : Nat) (hE1 : 1 ≤ E) (hE2 : E ≤ 254)
    (hfrac : frac < 2 ^ 23) (hS : S ≤ 1) :
    autoUnpack (E * 2 ^ 23 + frac + S * 2 ^ 31) =
      (if S = 1 then (-1:ℚ) else 1) * ((2 ^ 23 + (frac:ℚ)) / 2 ^ 24) *
        2 ^ ((E : Int) - 126) := by
  have hm_pos := sigVal_pos frac
  have p23 : (2:Nat) ^ 23 = 8388608 := by norm_num
  have p31 : (2:Nat) ^ 31 = 2147483648 := by norm_num
  have hf1 : (E * 2 ^ 23 + frac + S * 2 ^ 31) / 2 ^ 23 % 256 = E := by
    rw [p23, p31] at *
    omega
  have hf2 : (E * 2 ^ 23 + frac + S * 2 ^ 31) % 2 ^ 23 = frac := by
    rw [p23, p31] at *
    omega
  have hf3 : (E * 2 ^ 23 + frac + S * 2 ^ 31) / 2 ^ 31 % 2 = S := by
    rw [p23, p31] at *
    omega
  have hsig_eq : (frac : ℚ) / (8388608 * 2) + 1 / 2 =
      (2 ^ 23 + (frac:ℚ)) / 2 ^ 24 := by
    field_simp
    ring
  have hEcast : ((E:Int)) ≠ 0 := by omega
  have hfin : ((2 ^ 23 + (frac:ℚ)) / 2 ^ 24) * 2 ^ ((E:Int) - 126) <
      2 ^ (128:ℕ) := by
    calc ((2 ^ 23 + (frac:ℚ)) / 2 ^ 24) * 2 ^ ((E:Int) - 126)
        < 1 * 2 ^ ((E:Int) - 126) :=
          mul_lt_mul_of_pos_right (sigVal_lt_one frac hfrac)
            (two_zpow_pos _)
      _ = 2 ^ ((E:Int) - 126) := one_mul _
      _ ≤ 2 ^ (128 : Int) := zpow_le_zpow_right₀ (by norm_num) (by omega)
      _ = 2 ^ (128 : ℕ) := by norm_num
  simp only [autoUnpack]
  rw [hf1, hf2, hf3]
  rw [if_pos (Or.inl hEcast), if_pos (Or.inl hEcast)]
  rw [hsig_eq]
  simp only [decide_eq_true_eq]
  by_cases hS1 : S = 1
  · rw [if_pos hS1, if_pos hS1, neg_mul]
    have habs : |-((2 ^ 23 + (frac:ℚ)) / 2 ^ 24 * 2 ^ ((E:Int) - 126))| =
        (2 ^ 23 + (frac:ℚ)) / 2 ^ 24 * 2 ^ ((E:Int) - 126) := by
      rw [abs_neg, abs_of_pos (mul_pos hm_pos (two_zpow_pos _))]
    rw [if_pos (by rw [habs]; exact hfin)]
    ring
  · rw [if_neg hS1, if_neg hS1]
    have habs : |(2 ^ 23 + (frac:ℚ)) / 2 ^ 24 * 2 ^ ((E:Int) - 126)| =
        (2 ^ 23 + (frac:ℚ)) / 2 ^ 24 * 2 ^ ((E:Int) - 126) :=
      abs_of_pos (mul_pos hm_pos (two_zpow_pos _))
    rw [if_pos (by rw [habs]; exact hfin)]
    ring

/-- Below the flush threshold (zero input included), the round-trip
returns exactly `0.0` with the cursor advanced by 4. -/
theorem roundtrip_flush (b : Buf) (v : F32) (c : Int) (hc : 0 ≤ c)
    (hc4 : c + 4 ≤ 1024) (hflush : |F32.val v| < subnormalLimit) :
    buffer_get_float32_auto
      (some (buffer_append_float32_auto b v c).1) (some c) =
      (0, some (c + 4)) := by
  rw [append_auto_flush b v c hflush]
  simp only [buffer_get_float32_auto]
  rw [get_uint32_append b 0 c hc hc4 (by norm_num)]
  rw [Int.toNat_natCast]
  have h0 : autoUnpack 0 = 0 := by
    simp only [autoUnpack]
    norm_num
  rw [h0]

/-- C9: for every finite float input — exact zero, or a nonzero value
given by its exact `frexpf` decomposition with `frac < 2^23` and
`expo ≤ 128` — and every cursor with 4 bytes of room:
`get_float32_auto(append_float32_auto(value))` returns the value exactly
(hence to single-precision accuracy) when `|value|` is at or above the
flush threshold `1.5e-38`, and returns exactly `0.0` when `|value|` is
below the threshold (in particular for the input `0.0` itself); the
cursor advances by 4 on both sides. -/
theorem C9_auto_float_roundtrip (b : Buf) (v : F32) (c : Int)
    (hwf : v.wf) (hc : 0 ≤ c) (hc4 : c + 4 ≤ 1024) :
    (buffer_append_float32_auto b v c).2 = c + 4 ∧
    (subnormalLimit ≤ |F32.val v| →
      buffer_get_float32_auto
        (some (buffer_append_float32_auto b v c).1) (some c) =
        (F32.val v, some (c + 4))) ∧
    (|F32.val v| < subnormalLimit →
      buffer_get_float32_auto
        (some (buffer_append_float32_auto b v c).1) (some c) =
        (0, some (c + 4))) := by
  refine ⟨rfl, fun hD => ?_, fun hflush => roundtrip_flush b v c hc hc4 hflush⟩
  cases v with
  | zero =>
    simp only [F32.val, abs_zero] at hD
    exact absurd hD (not_le.mpr subLimit_pos)
  | num sign frac expo =>
    obtain ⟨hfrac, hexpo⟩ := hwf
    simp only [F32.val] at hD ⊢
    have he1 : -125 ≤ expo := expo_ge_neg125 sign frac expo hfrac hD
    rw [append_auto_encodes b sign frac expo c hfrac he1 hexpo hD]
    have hSform : (expo + 126).toNat * 2 ^ 23 + frac +
        (if sign then 2 ^ 31 else 0) =
        (expo + 126).toNat * 2 ^ 23 + frac +
          (if sign then 1 else 0) * 2 ^ 31 := by
      cases sign <;> simp
    rw [hSform]
    have hWlt : (expo + 126).toNat * 2 ^ 23 + frac +
        (if sign then 1 else 0) * 2 ^ 31 < 4294967296 := by
      have p23 : (2:Nat) ^ 23 = 8388608 := by norm_num
      have p31 : (2:Nat) ^ 31 = 2147483648 := by norm_num
      have hE : (expo + 126).toNat ≤ 254 := by omega
      cases sign <;> simp <;> rw [p23, p31] at * <;> omega
    simp only [buffer_get_float32_auto]
    rw [get_uint32_append b _ c hc hc4 hWlt]
    rw [Int.toNat_natCast]
    rw [autoUnpack_word (if sign then 1 else 0) frac (expo + 126).toNat
      (by omega) (by omega) hfrac (by cases sign <;> simp)]
    have hexp : (((expo + 126).toNat : Int)) - 126 = expo := by omega
    rw [hexp]
    cases sign <;> simp [floatVal]

/-- Witness for C9: the value `1.0` (decomposition `(false, 0, 1)`) is
reproduced exactly; the tiny value `2^-131` (decomposition
`(false, 0, -130)`) is flushed to `0.0`; the input `0.0` itself
round-trips to exactly `0.0`. -/
theorem C9_auto_float_roundtrip_witness :
    (buffer_append_float32_auto bufZero (F32.num false 0 1) 0).2 = 0 + 4 ∧
    buffer_get_float32_auto
      (some (buffer_append_float32_auto bufZero (F32.num false 0 1) 0).1)
      (some 0) = (F32.val (F32.num false 0 1), some (0 + 4)) ∧
    buffer_get_float32_auto
      (some (buffer_append_float32_auto bufZero (F32.num false 0 (-130)) 0).1)
      (some 0) = (0, some (0 + 4)) ∧
    buffer_get_float32_auto
      (some (buffer_append_float32_auto bufZero F32.zero 0).1)
      (some 0) = (0, some (0 + 4)) := by
  have h := C9_auto_float_roundtrip bufZero (F32.num false 0 1) 0
    ⟨by norm_num, by norm_num⟩ (by norm_num) (by norm_num)
  have h2 := C9_auto_float_roundtrip bufZero (F32.num false 0 (-130)) 0
    ⟨by norm_num, by norm_num⟩ (by norm_num) (by norm_num)
  have h3 := C9_auto_float_roundtrip bufZero F32.zero 0 trivial
    (by norm_num) (by norm_num)
  refine ⟨h.1, h.2.1 ?_, h2.2.2 ?_, h3.2.2 ?_⟩
  · simp only [F32.val]
    rw [floatVal_abs]
    rw [subnormalLimit]
    norm_num
  · simp only [F32.val]
    rw [floatVal_abs]
    rw [subnormalLimit]
    have h2e : ((2:ℚ)) ^ ((-130):Int) = 1 / 2 ^ (130:ℕ) := by
      rw [zpow_neg, ← zpow_natCast (2:ℚ) 130]
      norm_num
    rw [h2e]
    norm_num
  · simp only [F32.val]
    rw [abs_zero]
    exact subLimit_pos

end VescUart
